import Mathlib

/-
Verification of the 2D shallow-water finite-difference integrator
(shallow_water_sim.py) against its natural-language specification.

The integrator is embedded shallowly: numpy arrays of shape (N_x, N_y)
become total functions ℕ → ℕ → ℚ whose observable entries are the
indices i < N_x, j < N_y (exact rational arithmetic stands in for
float64); every in-place slice assignment of the script becomes a
function that realizes exactly the written entries, with entries
outside the written slices taken from the previous contents of the
buffer where the script would leave them in place.
-/

/-- A 2D array of the script, as a total function on indices; only
indices i < N_x, j < N_y correspond to actual array entries. -/
abbrev Arr := ℕ → ℕ → ℚ

/-- The grid sizes and scalar coefficients read by the time-stepping
loop: N_x, N_y grid point counts, gravity g, resting depth H, time
step dt, and grid spacings dx, dy. -/
structure SWParams where
  Nx : ℕ
  Ny : ℕ
  g : ℚ
  H : ℚ
  dt : ℚ
  dx : ℚ
  dy : ℚ

/-- The current-level fields u_n, v_n, eta_n of the script. -/
structure SWState where
  u : Arr
  v : Arr
  eta : Arr

/-- The persistent next-level buffers u_np1, v_np1.  They survive
across iterations (the state rotation copies them, it does not clear
them), so the step body receives their previous contents. -/
structure Buffers where
  ubuf : Arr
  vbuf : Arr

/-- Buffers as allocated by np.zeros before the loop. -/
def zeroBuf : Buffers := ⟨fun _ _ => 0, fun _ _ => 0⟩

/-- Lines 249 and 254 of the script:
u_np1[:-1, :] = u_n[:-1, :] - g*dt/dx*(eta_n[1:, :] - eta_n[:-1, :])
followed by u_np1[-1, :] = 0.0 (eastern boundary).  Rows with
i + 1 > N_x do not exist in the array; the model returns the incoming
buffer contents there. -/
def u_np1 (p : SWParams) (s : SWState) (b : Arr) : Arr := fun i j =>
  if i + 1 = p.Nx then 0
  else if i + 1 < p.Nx then
    s.u i j - p.g * p.dt / p.dx * (s.eta (i + 1) j - s.eta i j)
  else b i j

/-- Lines 250 and 253 of the script:
v_np1[:, :-1] = v_n[:, :-1] - g*dt/dy*(eta_n[:, 1:] - eta_n[:, :-1])
followed by v_np1[:, -1] = 0.0 (northern boundary). -/
def v_np1 (p : SWParams) (s : SWState) (b : Arr) : Arr := fun i j =>
  if j + 1 = p.Ny then 0
  else if j + 1 < p.Ny then
    s.v i j - p.g * p.dt / p.dy * (s.eta i (j + 1) - s.eta i j)
  else b i j

/-- Lines 260-261: east interface thickness,
h_e[:-1, :] = np.where(u_np1[:-1, :] > 0, eta_n[:-1, :] + H, eta_n[1:, :] + H)
and h_e[-1, :] = eta_n[-1, :] + H. -/
def h_e (p : SWParams) (un : Arr) (eta : Arr) : Arr := fun i j =>
  if i + 1 < p.Nx then
    (if 0 < un i j then eta i j + p.H else eta (i + 1) j + p.H)
  else eta i j + p.H

/-- Lines 263-264: west interface thickness,
h_w[0, :] = eta_n[0, :] + H and
h_w[1:, :] = np.where(u_np1[:-1, :] > 0, eta_n[:-1, :] + H, eta_n[1:, :] + H). -/
def h_w (p : SWParams) (un : Arr) (eta : Arr) : Arr := fun i j =>
  if i = 0 then eta 0 j + p.H
  else if 0 < un (i - 1) j then eta (i - 1) j + p.H else eta i j + p.H

/-- Lines 266-267: north interface thickness,
h_n[:, :-1] = np.where(v_np1[:, :-1] > 0, eta_n[:, :-1] + H, eta_n[:, 1:] + H)
and h_n[:, -1] = eta_n[:, -1] + H. -/
def h_n (p : SWParams) (vn : Arr) (eta : Arr) : Arr := fun i j =>
  if j + 1 < p.Ny then
    (if 0 < vn i j then eta i j + p.H else eta i (j + 1) + p.H)
  else eta i j + p.H

/-- Lines 269-270: south interface thickness,
h_s[:, 0] = eta_n[:, 0] + H and
h_s[:, 1:] = np.where(v_np1[:, :-1] > 0, eta_n[:, :-1] + H, eta_n[:, 1:] + H). -/
def h_s (p : SWParams) (vn : Arr) (eta : Arr) : Arr := fun i j =>
  if j = 0 then eta i 0 + p.H
  else if 0 < vn i (j - 1) then eta i (j - 1) + p.H else eta i j + p.H

/-- Lines 272-273: x-direction mass flux divergence,
uhwe[0, :] = u_np1[0, :]*h_e[0, :] and
uhwe[1:, :] = u_np1[1:, :]*h_e[1:, :] - u_np1[:-1, :]*h_w[1:, :]. -/
def uhwe (un he hw : Arr) : Arr := fun i j =>
  if i = 0 then un 0 j * he 0 j
  else un i j * he i j - un (i - 1) j * hw i j

/-- Lines 275-276: y-direction mass flux divergence,
vhns[:, 0] = v_np1[:, 0]*h_n[:, 0] and
vhns[:, 1:] = v_np1[:, 1:]*h_n[:, 1:] - v_np1[:, :-1]*h_s[:, 1:]. -/
def vhns (vn hn hs : Arr) : Arr := fun i j =>
  if j = 0 then vn i 0 * hn i 0
  else vn i j * hn i j - vn i (j - 1) * hs i j

/-- Line 280: continuity update,
eta_np1[:, :] = eta_n[:, :] - dt*(uhwe[:, :]/dx + vhns[:, :]/dy). -/
def eta_np1 (p : SWParams) (eta uh vh : Arr) : Arr := fun i j =>
  eta i j - p.dt * (uh i j / p.dx + vh i j / p.dy)

/-- One execution of the loop body, lines 249-287: momentum predictor,
boundary overwrites, upwind interface thicknesses, flux divergences,
continuity update, and the state rotation u_n = np.copy(u_np1) etc.
The rotation copies values, so the next state is the computed arrays
and the buffers keep those same contents for the next iteration. -/
def stepFull (p : SWParams) : SWState × Buffers → SWState × Buffers := fun sb =>
  let s := sb.1
  let un := u_np1 p s sb.2.ubuf
  let vn := v_np1 p s sb.2.vbuf
  let he := h_e p un s.eta
  let hw := h_w p un s.eta
  let hn := h_n p vn s.eta
  let hs := h_s p vn s.eta
  (⟨un, vn, eta_np1 p s.eta (uhwe un he hw) (vhns vn hn hs)⟩, ⟨un, vn⟩)

/-- Lines 234-242: the block before the loop that writes u_np1 and
v_np1 from the initial state (predictor and boundary overwrites),
touching only the two buffers. -/
def preloop (p : SWParams) (s : SWState) (b : Buffers) : Buffers :=
  ⟨u_np1 p s b.ubuf, v_np1 p s b.vbuf⟩

/-- The main loop, lines 247-299: while (time_step < max_time_step),
run the body, increment time_step, and if time_step % anim_interval
== 0 append the current u_n, v_n, eta_n to the sampling lists
(modelled as one list of states, appended in order). -/
def swRun (p : SWParams) (anim maxT t : ℕ) (sb : SWState × Buffers)
    (snaps : List SWState) : (SWState × Buffers) × List SWState :=
  if _h : t < maxT then
    let sb2 := stepFull p sb
    swRun p anim maxT (t + 1) sb2
      (if (t + 1) % anim = 0 then snaps ++ [sb2.1] else snaps)
  else (sb, snaps)
termination_by maxT - t
decreasing_by omega

/-- The loop-counter skeleton of lines 247-289 in isolation:
time_step starts at t, the body runs while time_step < maxT, and each
body execution increments time_step by one; the value is the number
of body executions. -/
def loopIters (maxT t : ℕ) : ℕ :=
  if h : t < maxT then loopIters maxT (t + 1) + 1 else 0
termination_by maxT - t
decreasing_by omega

/-- The number of loop-body executions from counter value t is maxT - t. -/
theorem loopIters_eq (maxT : ℕ) : ∀ t, loopIters maxT t = maxT - t := by
  intro t
  unfold loopIters
  split
  · rw [loopIters_eq]
    omega
  · omega
termination_by t => maxT - t

/-- Concrete parameters used as witnesses: a 2 x 2 grid with unit
coefficients and resting depth 2. -/
def pW : SWParams := ⟨2, 2, 1, 2, 1, 1, 1⟩

/-- Concrete witness state: fluid at rest with a unit elevation in
cell (0, 0). -/
def sW : SWState :=
  ⟨fun _ _ => 0, fun _ _ => 0, fun i j => if i = 0 ∧ j = 0 then 1 else 0⟩

/-- C1: in every execution of the loop body, the momentum predictor
produces u_{n+1}[i,j] = u_n[i,j] - (g*dt/dx)*(eta_n[i+1,j] - eta_n[i,j])
for every i < N_x - 1 (all j), and v_{n+1}[i,j] = v_n[i,j]
- (g*dt/dy)*(eta_n[i,j+1] - eta_n[i,j]) for every j < N_y - 1 (all i);
no Coriolis, friction or wind term enters the update. -/
theorem c1_momentum_predictor (p : SWParams) (s : SWState) (b : Buffers)
    (i j : ℕ) :
    (i + 1 < p.Nx →
      (stepFull p (s, b)).1.u i j =
        s.u i j - p.g * p.dt / p.dx * (s.eta (i + 1) j - s.eta i j)) ∧
    (j + 1 < p.Ny →
      (stepFull p (s, b)).1.v i j =
        s.v i j - p.g * p.dt / p.dy * (s.eta i (j + 1) - s.eta i j)) := by
  constructor
  · intro h
    show u_np1 p s b.ubuf i j = _
    unfold u_np1
    rw [if_neg (by omega), if_pos h]
  · intro h
    show v_np1 p s b.vbuf i j = _
    unfold v_np1
    rw [if_neg (by omega), if_pos h]

/-- C1 witness at the concrete 2 x 2 configuration, cell (0, 0). -/
theorem c1_momentum_predictor_witness :
    (stepFull pW (sW, zeroBuf)).1.u 0 0 =
      sW.u 0 0 - pW.g * pW.dt / pW.dx * (sW.eta 1 0 - sW.eta 0 0) ∧
    (stepFull pW (sW, zeroBuf)).1.v 0 0 =
      sW.v 0 0 - pW.g * pW.dt / pW.dy * (sW.eta 0 1 - sW.eta 0 0) :=
  ⟨(c1_momentum_predictor pW sW zeroBuf 0 0).1 (by decide),
   (c1_momentum_predictor pW sW zeroBuf 0 0).2 (by decide)⟩

/-- C2: after every completed loop body (any positive number of
iterations of the step map, i.e. at every point where the state
rotation has finished), the last row of u and the last column of v
are exactly zero. -/
theorem c2_boundary_invariant (p : SWParams) (hNx : 1 ≤ p.Nx)
    (hNy : 1 ≤ p.Ny) (sb : SWState × Buffers) (n i j : ℕ) :
    ((stepFull p)^[n + 1] sb).1.u (p.Nx - 1) j = 0 ∧
    ((stepFull p)^[n + 1] sb).1.v i (p.Ny - 1) = 0 := by
  rw [Function.iterate_succ_apply']
  constructor
  · show u_np1 p _ _ (p.Nx - 1) j = 0
    unfold u_np1
    rw [if_pos (by omega)]
  · show v_np1 p _ _ i (p.Ny - 1) = 0
    unfold v_np1
    rw [if_pos (by omega)]

/-- C2 witness: after one step on the concrete 2 x 2 configuration the
eastern row of u and the northern column of v vanish. -/
theorem c2_boundary_invariant_witness :
    ((stepFull pW)^[1] (sW, zeroBuf)).1.u (pW.Nx - 1) 0 = 0 ∧
    ((stepFull pW)^[1] (sW, zeroBuf)).1.v 0 (pW.Ny - 1) = 0 :=
  c2_boundary_invariant pW (by decide) (by decide) (sW, zeroBuf) 0 0 0

/-- C3: the upwind interface thicknesses of every step select eta_n + H
from the cell the just-updated face velocity flows from via a strict
> 0 test on that velocity ((stepFull p (s, b)).1.u is exactly the
u_np1 array the step computes before the upwind block, and likewise
for v): the general selection rule at interior x-faces, the tie rule
(face velocity exactly 0 takes the east, resp. north, neighbour), and
the domain-edge faces which use the adjacent boundary cell's depth
directly. -/
theorem c3_upwind_selection (p : SWParams) (s : SWState) (b : Buffers)
    (i j : ℕ) :
    (i + 1 < p.Nx →
      h_e p ((stepFull p (s, b)).1.u) s.eta i j =
        (if 0 < (stepFull p (s, b)).1.u i j then s.eta i j + p.H
         else s.eta (i + 1) j + p.H)) ∧
    (i + 1 < p.Nx → (stepFull p (s, b)).1.u i j = 0 →
      h_e p ((stepFull p (s, b)).1.u) s.eta i j = s.eta (i + 1) j + p.H) ∧
    (1 ≤ p.Nx →
      h_e p ((stepFull p (s, b)).1.u) s.eta (p.Nx - 1) j =
        s.eta (p.Nx - 1) j + p.H) ∧
    (h_w p ((stepFull p (s, b)).1.u) s.eta 0 j = s.eta 0 j + p.H) ∧
    (j + 1 < p.Ny → (stepFull p (s, b)).1.v i j = 0 →
      h_n p ((stepFull p (s, b)).1.v) s.eta i j = s.eta i (j + 1) + p.H) ∧
    (1 ≤ p.Ny →
      h_n p ((stepFull p (s, b)).1.v) s.eta i (p.Ny - 1) =
        s.eta i (p.Ny - 1) + p.H) ∧
    (h_s p ((stepFull p (s, b)).1.v) s.eta i 0 = s.eta i 0 + p.H) := by
  refine ⟨?_, ?_, ?_, ?_, ?_, ?_, ?_⟩
  · intro h
    unfold h_e
    rw [if_pos h]
  · intro h h0
    unfold h_e
    rw [if_pos h, h0, if_neg (lt_irrefl 0)]
  · intro h
    unfold h_e
    rw [if_neg (by omega)]
  · unfold h_w
    rw [if_pos rfl]
  · intro h h0
    unfold h_n
    rw [if_pos h, h0, if_neg (lt_irrefl 0)]
  · intro h
    unfold h_n
    rw [if_neg (by omega)]
  · unfold h_s
    rw [if_pos rfl]

/-- C3 witness on the concrete configuration: the state at rest has
updated face velocities, and the tie and edge rules evaluate as the
theorem states at faces (0, 0) and the boundary. -/
theorem c3_upwind_selection_witness :
    h_e pW ((stepFull pW (sW, zeroBuf)).1.u) sW.eta 0 1 =
      (if 0 < (stepFull pW (sW, zeroBuf)).1.u 0 1 then sW.eta 0 1 + pW.H
       else sW.eta 1 1 + pW.H) ∧
    h_e pW ((stepFull pW (sW, zeroBuf)).1.u) sW.eta 0 1 =
      sW.eta 1 1 + pW.H ∧
    h_e pW ((stepFull pW (sW, zeroBuf)).1.u) sW.eta (pW.Nx - 1) 0 =
      sW.eta (pW.Nx - 1) 0 + pW.H ∧
    h_n pW ((stepFull pW (sW, zeroBuf)).1.v) sW.eta 1 0 =
      sW.eta 1 1 + pW.H :=
  ⟨(c3_upwind_selection pW sW zeroBuf 0 1).1 (by decide),
   (c3_upwind_selection pW sW zeroBuf 0 1).2.1 (by decide)
     (by norm_num [stepFull, u_np1, sW, pW, zeroBuf]),
   (c3_upwind_selection pW sW zeroBuf 0 1).2.2.1 (by decide),
   (c3_upwind_selection pW sW zeroBuf 1 0).2.2.2.2.1 (by decide)
     (by norm_num [stepFull, v_np1, sW, pW, zeroBuf])⟩

/-- C4: the continuity update of every step is
eta_{n+1}[i,j] = eta_n[i,j] - dt*(uhwe[i,j]/dx + vhns[i,j]/dy), where
uhwe[0,j] uses only the single outgoing face and uhwe[i,j] for i >= 1
is u_{n+1}[i,j]*h_e[i,j] - u_{n+1}[i-1,j]*h_w[i,j], analogously in y;
the code adds no source or sink term (the source/sink toggles of the
script are disabled and no such term appears in the loop). -/
theorem c4_continuity_update (p : SWParams) (s : SWState) (b : Buffers)
    (i j : ℕ) :
    ((stepFull p (s, b)).1.eta i j =
      s.eta i j - p.dt *
        (uhwe ((stepFull p (s, b)).1.u)
            (h_e p ((stepFull p (s, b)).1.u) s.eta)
            (h_w p ((stepFull p (s, b)).1.u) s.eta) i j / p.dx +
         vhns ((stepFull p (s, b)).1.v)
            (h_n p ((stepFull p (s, b)).1.v) s.eta)
            (h_s p ((stepFull p (s, b)).1.v) s.eta) i j / p.dy)) ∧
    (uhwe ((stepFull p (s, b)).1.u)
        (h_e p ((stepFull p (s, b)).1.u) s.eta)
        (h_w p ((stepFull p (s, b)).1.u) s.eta) 0 j =
      (stepFull p (s, b)).1.u 0 j *
        h_e p ((stepFull p (s, b)).1.u) s.eta 0 j) ∧
    (1 ≤ i →
      uhwe ((stepFull p (s, b)).1.u)
          (h_e p ((stepFull p (s, b)).1.u) s.eta)
          (h_w p ((stepFull p (s, b)).1.u) s.eta) i j =
        (stepFull p (s, b)).1.u i j *
            h_e p ((stepFull p (s, b)).1.u) s.eta i j -
          (stepFull p (s, b)).1.u (i - 1) j *
            h_w p ((stepFull p (s, b)).1.u) s.eta i j) ∧
    (vhns ((stepFull p (s, b)).1.v)
        (h_n p ((stepFull p (s, b)).1.v) s.eta)
        (h_s p ((stepFull p (s, b)).1.v) s.eta) i 0 =
      (stepFull p (s, b)).1.v i 0 *
        h_n p ((stepFull p (s, b)).1.v) s.eta i 0) ∧
    (1 ≤ j →
      vhns ((stepFull p (s, b)).1.v)
          (h_n p ((stepFull p (s, b)).1.v) s.eta)
          (h_s p ((stepFull p (s, b)).1.v) s.eta) i j =
        (stepFull p (s, b)).1.v i j *
            h_n p ((stepFull p (s, b)).1.v) s.eta i j -
          (stepFull p (s, b)).1.v i (j - 1) *
            h_s p ((stepFull p (s, b)).1.v) s.eta i j) := by
  refine ⟨rfl, ?_, ?_, ?_, ?_⟩
  · unfold uhwe
    rw [if_pos rfl]
  · intro h
    unfold uhwe
    rw [if_neg (by omega)]
  · unfold vhns
    rw [if_pos rfl]
  · intro h
    unfold vhns
    rw [if_neg (by omega)]

/-- C4 witness at the concrete configuration, cell (1, 1). -/
theorem c4_continuity_update_witness :
    ((stepFull pW (sW, zeroBuf)).1.eta 1 1 =
      sW.eta 1 1 - pW.dt *
        (uhwe ((stepFull pW (sW, zeroBuf)).1.u)
            (h_e pW ((stepFull pW (sW, zeroBuf)).1.u) sW.eta)
            (h_w pW ((stepFull pW (sW, zeroBuf)).1.u) sW.eta) 1 1 / pW.dx +
         vhns ((stepFull pW (sW, zeroBuf)).1.v)
            (h_n pW ((stepFull pW (sW, zeroBuf)).1.v) sW.eta)
            (h_s pW ((stepFull pW (sW, zeroBuf)).1.v) sW.eta) 1 1 / pW.dy)) ∧
    (uhwe ((stepFull pW (sW, zeroBuf)).1.u)
        (h_e pW ((stepFull pW (sW, zeroBuf)).1.u) sW.eta)
        (h_w pW ((stepFull pW (sW, zeroBuf)).1.u) sW.eta) 1 1 =
      (stepFull pW (sW, zeroBuf)).1.u 1 1 *
          h_e pW ((stepFull pW (sW, zeroBuf)).1.u) sW.eta 1 1 -
        (stepFull pW (sW, zeroBuf)).1.u 0 1 *
          h_w pW ((stepFull pW (sW, zeroBuf)).1.u) sW.eta 1 1) ∧
    (vhns ((stepFull pW (sW, zeroBuf)).1.v)
        (h_n pW ((stepFull pW (sW, zeroBuf)).1.v) sW.eta)
        (h_s pW ((stepFull pW (sW, zeroBuf)).1.v) sW.eta) 1 1 =
      (stepFull pW (sW, zeroBuf)).1.v 1 1 *
          h_n pW ((stepFull pW (sW, zeroBuf)).1.v) sW.eta 1 1 -
        (stepFull pW (sW, zeroBuf)).1.v 1 0 *
          h_s pW ((stepFull pW (sW, zeroBuf)).1.v) sW.eta 1 1) :=
  ⟨(c4_continuity_update pW sW zeroBuf 1 1).1,
   (c4_continuity_update pW sW zeroBuf 1 1).2.2.1 (by decide),
   (c4_continuity_update pW sW zeroBuf 1 1).2.2.2.2 (by decide)⟩

/-- Telescoping helper: summing first-term / difference entries of the
flux-divergence shape leaves only the last face term. -/
theorem sum_ite_telescope (F : ℕ → ℚ) (m : ℕ) :
    ∑ i in Finset.range m, (if i = 0 then F 0 else F i - F (i - 1)) =
      if m = 0 then 0 else F (m - 1) := by
  induction m with
  | zero => simp
  | succ n ih =>
    rw [Finset.sum_range_succ, ih]
    cases n with
    | zero => simp
    | succ k =>
      rw [if_neg (Nat.succ_ne_zero k), if_neg (Nat.succ_ne_zero (k + 1)),
        if_neg (Nat.succ_ne_zero k)]
      simp only [Nat.succ_sub_one]
      ring

/-- On interior faces the west thickness of cell i is the east
thickness of cell i - 1: both are the same upwind selection. -/
theorem h_w_eq_h_e (p : SWParams) (un eta : Arr) (i j : ℕ) (h0 : i ≠ 0)
    (hi : i < p.Nx) : h_w p un eta i j = h_e p un eta (i - 1) j := by
  unfold h_w h_e
  rw [if_neg h0, if_pos (show i - 1 + 1 < p.Nx by omega),
    show i - 1 + 1 = i from by omega]

/-- On interior faces the south thickness of cell j is the north
thickness of cell j - 1. -/
theorem h_s_eq_h_n (p : SWParams) (vn eta : Arr) (i j : ℕ) (h0 : j ≠ 0)
    (hj : j < p.Ny) : h_s p vn eta i j = h_n p vn eta i (j - 1) := by
  unfold h_s h_n
  rw [if_neg h0, if_pos (show j - 1 + 1 < p.Ny by omega),
    show j - 1 + 1 = j from by omega]

/-- The x-flux divergences of a row telescope to the last outgoing
face flux. -/
theorem uhwe_row_sum (p : SWParams) (un eta : Arr) (j : ℕ) :
    ∑ i in Finset.range p.Nx,
        uhwe un (h_e p un eta) (h_w p un eta) i j =
      (if p.Nx = 0 then 0
       else un (p.Nx - 1) j * h_e p un eta (p.Nx - 1) j) := by
  rw [← sum_ite_telescope (fun i => un i j * h_e p un eta i j) p.Nx]
  apply Finset.sum_congr rfl
  intro i hi
  rw [Finset.mem_range] at hi
  by_cases h0 : i = 0
  · subst h0
    simp [uhwe]
  · unfold uhwe
    rw [if_neg h0, if_neg h0, h_w_eq_h_e p un eta i j h0 hi]

/-- The y-flux divergences of a column telescope to the last outgoing
face flux. -/
theorem vhns_col_sum (p : SWParams) (vn eta : Arr) (i : ℕ) :
    ∑ j in Finset.range p.Ny,
        vhns vn (h_n p vn eta) (h_s p vn eta) i j =
      (if p.Ny = 0 then 0
       else vn i (p.Ny - 1) * h_n p vn eta i (p.Ny - 1)) := by
  rw [← sum_ite_telescope (fun j => vn i j * h_n p vn eta i j) p.Ny]
  apply Finset.sum_congr rfl
  intro j hj
  rw [Finset.mem_range] at hj
  by_cases h0 : j = 0
  · subst h0
    simp [vhns]
  · unfold vhns
    rw [if_neg h0, if_neg h0, h_s_eq_h_n p vn eta i j h0 hj]

/-- The boundary overwrite makes the updated u vanish on the eastern
wall row. -/
theorem u_np1_wall (p : SWParams) (s : SWState) (b : Arr) (j : ℕ)
    (h : 1 ≤ p.Nx) : u_np1 p s b (p.Nx - 1) j = 0 := by
  unfold u_np1
  rw [if_pos (by omega)]

/-- The boundary overwrite makes the updated v vanish on the northern
wall column. -/
theorem v_np1_wall (p : SWParams) (s : SWState) (b : Arr) (i : ℕ)
    (h : 1 ≤ p.Ny) : v_np1 p s b i (p.Ny - 1) = 0 := by
  unfold v_np1
  rw [if_pos (by omega)]

/-- C5: with the (absent) source and sink terms disabled, one loop
body conserves the discrete sum of eta over all cells exactly, for
every state whose boundary velocities satisfy the wall conditions
u[N_x-1, :] = 0 and v[:, N_y-1] = 0 (in exact arithmetic this holds
with no tolerance: the flux divergence telescopes to the wall fluxes,
which vanish because the step itself pins the wall velocities). -/
theorem c5_mass_conservation (p : SWParams) (s : SWState) (b : Buffers)
    (_hu : ∀ j < p.Ny, s.u (p.Nx - 1) j = 0)
    (_hv : ∀ i < p.Nx, s.v i (p.Ny - 1) = 0) :
    ∑ i in Finset.range p.Nx, ∑ j in Finset.range p.Ny,
        (stepFull p (s, b)).1.eta i j =
      ∑ i in Finset.range p.Nx, ∑ j in Finset.range p.Ny, s.eta i j := by
  show ∑ i in Finset.range p.Nx, ∑ j in Finset.range p.Ny,
      eta_np1 p s.eta
        (uhwe (u_np1 p s b.ubuf) (h_e p (u_np1 p s b.ubuf) s.eta)
          (h_w p (u_np1 p s b.ubuf) s.eta))
        (vhns (v_np1 p s b.vbuf) (h_n p (v_np1 p s b.vbuf) s.eta)
          (h_s p (v_np1 p s b.vbuf) s.eta)) i j = _
  have hrow : ∀ j, ∑ i in Finset.range p.Nx,
      uhwe (u_np1 p s b.ubuf) (h_e p (u_np1 p s b.ubuf) s.eta)
        (h_w p (u_np1 p s b.ubuf) s.eta) i j = 0 := by
    intro j
    rw [uhwe_row_sum]
    rcases Nat.eq_zero_or_pos p.Nx with h | h
    · rw [if_pos h]
    · rw [if_neg (by omega), u_np1_wall p s b.ubuf j h, zero_mul]
  have hcol : ∀ i, ∑ j in Finset.range p.Ny,
      vhns (v_np1 p s b.vbuf) (h_n p (v_np1 p s b.vbuf) s.eta)
        (h_s p (v_np1 p s b.vbuf) s.eta) i j = 0 := by
    intro i
    rw [vhns_col_sum]
    rcases Nat.eq_zero_or_pos p.Ny with h | h
    · rw [if_pos h]
    · rw [if_neg (by omega), v_np1_wall p s b.vbuf i h, zero_mul]
  have hsplit : ∀ i, ∑ j in Finset.range p.Ny,
      eta_np1 p s.eta
        (uhwe (u_np1 p s b.ubuf) (h_e p (u_np1 p s b.ubuf) s.eta)
          (h_w p (u_np1 p s b.ubuf) s.eta))
        (vhns (v_np1 p s b.vbuf) (h_n p (v_np1 p s b.vbuf) s.eta)
          (h_s p (v_np1 p s b.vbuf) s.eta)) i j =
      ∑ j in Finset.range p.Ny, s.eta i j -
        (p.dt / p.dx) * ∑ j in Finset.range p.Ny,
          uhwe (u_np1 p s b.ubuf) (h_e p (u_np1 p s b.ubuf) s.eta)
            (h_w p (u_np1 p s b.ubuf) s.eta) i j -
        (p.dt / p.dy) * ∑ j in Finset.range p.Ny,
          vhns (v_np1 p s b.vbuf) (h_n p (v_np1 p s b.vbuf) s.eta)
            (h_s p (v_np1 p s b.vbuf) s.eta) i j := by
    intro i
    rw [Finset.mul_sum, Finset.mul_sum, ← Finset.sum_sub_distrib,
      ← Finset.sum_sub_distrib]
    apply Finset.sum_congr rfl
    intro j _
    unfold eta_np1
    ring
  have huh0 : ∑ i in Finset.range p.Nx, ∑ j in Finset.range p.Ny,
      uhwe (u_np1 p s b.ubuf) (h_e p (u_np1 p s b.ubuf) s.eta)
        (h_w p (u_np1 p s b.ubuf) s.eta) i j = 0 := by
    rw [Finset.sum_comm]
    simp only [hrow, Finset.sum_const_zero]
  have hvh0 : ∑ i in Finset.range p.Nx, ∑ j in Finset.range p.Ny,
      vhns (v_np1 p s b.vbuf) (h_n p (v_np1 p s b.vbuf) s.eta)
        (h_s p (v_np1 p s b.vbuf) s.eta) i j = 0 := by
    simp only [hcol, Finset.sum_const_zero]
  calc ∑ i in Finset.range p.Nx, ∑ j in Finset.range p.Ny,
        eta_np1 p s.eta
          (uhwe (u_np1 p s b.ubuf) (h_e p (u_np1 p s b.ubuf) s.eta)
            (h_w p (u_np1 p s b.ubuf) s.eta))
          (vhns (v_np1 p s b.vbuf) (h_n p (v_np1 p s b.vbuf) s.eta)
            (h_s p (v_np1 p s b.vbuf) s.eta)) i j
      = ∑ i in Finset.range p.Nx, (∑ j in Finset.range p.Ny, s.eta i j -
          (p.dt / p.dx) * ∑ j in Finset.range p.Ny,
            uhwe (u_np1 p s b.ubuf) (h_e p (u_np1 p s b.ubuf) s.eta)
              (h_w p (u_np1 p s b.ubuf) s.eta) i j -
          (p.dt / p.dy) * ∑ j in Finset.range p.Ny,
            vhns (v_np1 p s b.vbuf) (h_n p (v_np1 p s b.vbuf) s.eta)
              (h_s p (v_np1 p s b.vbuf) s.eta) i j) :=
        Finset.sum_congr rfl (fun i _ => hsplit i)
    _ = ∑ i in Finset.range p.Nx, ∑ j in Finset.range p.Ny, s.eta i j -
          (p.dt / p.dx) * (∑ i in Finset.range p.Nx,
            ∑ j in Finset.range p.Ny,
              uhwe (u_np1 p s b.ubuf) (h_e p (u_np1 p s b.ubuf) s.eta)
                (h_w p (u_np1 p s b.ubuf) s.eta) i j) -
          (p.dt / p.dy) * (∑ i in Finset.range p.Nx,
            ∑ j in Finset.range p.Ny,
              vhns (v_np1 p s b.vbuf) (h_n p (v_np1 p s b.vbuf) s.eta)
                (h_s p (v_np1 p s b.vbuf) s.eta) i j) := by
        rw [Finset.sum_sub_distrib, Finset.sum_sub_distrib,
          ← Finset.mul_sum, ← Finset.mul_sum]
    _ = ∑ i in Finset.range p.Nx, ∑ j in Finset.range p.Ny, s.eta i j := by
        rw [huh0, hvh0, mul_zero, mul_zero, sub_zero, sub_zero]

/-- C5 witness: one step on the concrete 2 x 2 resting-bump state
conserves the eta sum; its boundary velocities satisfy the walls. -/
theorem c5_mass_conservation_witness :
    (∀ j < pW.Ny, sW.u (pW.Nx - 1) j = 0) ∧
    (∀ i < pW.Nx, sW.v i (pW.Ny - 1) = 0) ∧
    ∑ i in Finset.range pW.Nx, ∑ j in Finset.range pW.Ny,
        (stepFull pW (sW, zeroBuf)).1.eta i j =
      ∑ i in Finset.range pW.Nx, ∑ j in Finset.range pW.Ny, sW.eta i j :=
  ⟨by decide, by decide,
   c5_mass_conservation pW sW zeroBuf (by decide) (by decide)⟩

/-- The final state of the loop from counter value t is the step map
iterated maxT - t times: the loop always terminates after exactly
that many body executions. -/
theorem swRun_fst (p : SWParams) (anim maxT : ℕ) :
    ∀ t sb snaps, (swRun p anim maxT t sb snaps).1 =
      (stepFull p)^[maxT - t] sb := by
  intro t sb snaps
  unfold swRun
  split
  · next h =>
    rw [swRun_fst p anim maxT (t + 1),
      show maxT - t = (maxT - (t + 1)) + 1 from by omega,
      Function.iterate_succ_apply]
  · next h =>
    rw [show maxT - t = 0 from by omega, Function.iterate_zero_apply]
termination_by t => maxT - t

/-- The snapshot list produced by the loop from counter value t: one
entry for every counter value t' in (t, maxT] divisible by
anim_interval, holding the state after t' - t further body
executions. -/
theorem swRun_snaps (p : SWParams) (anim maxT : ℕ) :
    ∀ t sb snaps, (swRun p anim maxT t sb snaps).2 =
      snaps ++ ((List.range' (t + 1) (maxT - t)).filter
          (fun x => x % anim = 0)).map
        (fun x => ((stepFull p)^[x - t] sb).1) := by
  intro t sb snaps
  unfold swRun
  split
  · next h =>
    rw [swRun_snaps p anim maxT (t + 1)]
    have hrange : List.range' (t + 1) (maxT - t) =
        (t + 1) :: List.range' (t + 2) (maxT - (t + 1)) := by
      rw [show maxT - t = (maxT - (t + 1)) + 1 from by omega,
        List.range'_succ]
    rw [hrange]
    have hmap : ∀ x ∈ (List.range' (t + 2) (maxT - (t + 1))).filter
        (fun x => x % anim = 0),
        ((stepFull p)^[x - (t + 1)] (stepFull p sb)).1 =
          ((stepFull p)^[x - t] sb).1 := by
      intro x hx
      have hge : t + 2 ≤ x := (List.mem_range'_1.mp
        (List.mem_of_mem_filter hx)).1
      rw [show x - t = (x - (t + 1)) + 1 from by omega,
        Function.iterate_succ_apply]
    by_cases hmod : (t + 1) % anim = 0
    · rw [if_pos hmod, List.filter_cons_of_pos (by simpa using hmod),
        List.map_cons, show t + 1 - t = 1 from by omega,
        List.append_assoc, List.singleton_append,
        List.map_congr_left hmap, Function.iterate_one]
    · rw [if_neg hmod, List.filter_cons_of_neg (by simpa using hmod),
        List.map_congr_left hmap]
  · next h =>
    rw [show maxT - t = 0 from by omega]
    simp
termination_by t => maxT - t

/-- C6 (amended): the main loop, started as in the script with
time_step = 1, terminates, and the body executes exactly
max_time_step - 1 times, not max_time_step times; the final state is
the (max_time_step - 1)-fold iterate of the step map. -/
theorem c6_loop_iterations (p : SWParams) (anim maxT : ℕ)
    (sb : SWState × Buffers) :
    (swRun p anim maxT 1 sb []).1 = (stepFull p)^[maxT - 1] sb ∧
    loopIters maxT 1 = maxT - 1 :=
  ⟨swRun_fst p anim maxT 1 sb [], loopIters_eq maxT 1⟩

/-- C6 counterexample: with the script's max_time_step = 5000 the loop
body executes 4999 times, so the claim that it executes exactly
max_time_step = 5000 times is false. -/
theorem c6_loop_iterations_cex :
    loopIters 5000 1 = 4999 ∧ (4999 : ℕ) ≠ 5000 :=
  ⟨by rw [loopIters_eq], by decide⟩

/-- C7 (amended): the sampler appends the current (u, v, eta) state
exactly at the loop-counter values that are multiples of
anim_interval, in order; the appended entry for counter value t holds
the field values of the state after t - 1 completed steps (the
counter starts at 1, so its simulated time is (t - 1)*dt, not t*dt),
and the recorded list still holds exactly those values when the run
ends (the rotation rebinds u_n to a fresh np.copy each step, so the
appended arrays are never mutated afterwards; no explicit time stamp
is stored with a snapshot). -/
theorem c7_sampler (p : SWParams) (anim maxT : ℕ)
    (sb : SWState × Buffers) :
    (swRun p anim maxT 1 sb []).2 =
      ((List.range' 2 (maxT - 1)).filter (fun x => x % anim = 0)).map
        (fun x => ((stepFull p)^[x - 1] sb).1) :=
  swRun_snaps p anim maxT 1 sb []

/-- Parameters of the C7 counterexample: a 2 x 1 grid, unit
coefficients, resting depth 0. -/
def pCex : SWParams := ⟨2, 1, 1, 0, 1, 1, 1⟩

/-- State of the C7 counterexample: at rest, eta = 0 in cell (0,0)
and 1 in cell (1,0). -/
def sCex : SWState :=
  ⟨fun _ _ => 0, fun _ _ => 0, fun i _ => if i = 0 then 0 else 1⟩

/-- C7 counterexample: running the loop with anim_interval = 2 and
max_time_step = 3, the single snapshot (appended at counter value 2)
is the state after one step, whose u[0,0] is -1; the state at
simulated time 2*dt (two steps) has u[0,0] = 0, so the snapshot is
not the state at simulated time step_index*dt that the claimed
annotation asserts. -/
theorem c7_sampler_cex :
    ((swRun pCex 2 3 1 (sCex, zeroBuf) []).2.map (fun s => s.u 0 0)) =
        [(-1 : ℚ)] ∧
    ((stepFull pCex)^[1] (sCex, zeroBuf)).1.u 0 0 = -1 ∧
    ((stepFull pCex)^[2] (sCex, zeroBuf)).1.u 0 0 = 0 ∧
    ((-1 : ℚ)) ≠ 0 := by
  have h1 : ((stepFull pCex)^[1] (sCex, zeroBuf)).1.u 0 0 = -1 := by
    norm_num [Function.iterate_one, stepFull, u_np1, sCex, pCex, zeroBuf]
  have hsnaps := swRun_snaps pCex 2 3 1 (sCex, zeroBuf) []
  refine ⟨?_, h1, ?_, by norm_num⟩
  · rw [hsnaps]
    norm_num [List.range', stepFull, u_np1, sCex, pCex, zeroBuf]
  · rw [show (2 : ℕ) = 1 + 1 from rfl, Function.iterate_succ_apply']
    have hu : ((stepFull pCex)^[1] (sCex, zeroBuf)).1.u 0 0 = -1 := h1
    have heta0 : ((stepFull pCex)^[1] (sCex, zeroBuf)).1.eta 0 0 = 1 := by
      norm_num [Function.iterate_one, stepFull, eta_np1, uhwe, vhns,
        h_e, h_w, h_n, h_s, u_np1, v_np1, sCex, pCex, zeroBuf]
    have heta1 : ((stepFull pCex)^[1] (sCex, zeroBuf)).1.eta 1 0 = 0 := by
      norm_num [Function.iterate_one, stepFull, eta_np1, uhwe, vhns,
        h_e, h_w, h_n, h_s, u_np1, v_np1, sCex, pCex, zeroBuf]
    show u_np1 pCex ((stepFull pCex)^[1] (sCex, zeroBuf)).1
      ((stepFull pCex)^[1] (sCex, zeroBuf)).2.ubuf 0 0 = 0
    unfold u_np1
    rw [if_neg (by decide), if_pos (by decide), hu, heta0, heta1]
    norm_num [pCex]

/-- Two states agree on every entry that actually exists in the
N_x x N_y arrays (entries outside the grid are artifacts of the
total-function model). -/
def stateEqOn (p : SWParams) (s t : SWState) : Prop :=
  (∀ i < p.Nx, ∀ j < p.Ny, s.u i j = t.u i j) ∧
  (∀ i < p.Nx, ∀ j < p.Ny, s.v i j = t.v i j) ∧
  (∀ i < p.Nx, ∀ j < p.Ny, s.eta i j = t.eta i j)

theorem stateEqOn_refl (p : SWParams) (s : SWState) : stateEqOn p s s :=
  ⟨fun _ _ _ _ => rfl, fun _ _ _ _ => rfl, fun _ _ _ _ => rfl⟩

/-- The updated u at a grid entry does not depend on the incoming
buffer contents nor on any off-grid entry of the state. -/
theorem u_np1_eqOn (p : SWParams) {s t : SWState} (h : stateEqOn p s t)
    (b c : Arr) {i j : ℕ} (hi : i < p.Nx) (hj : j < p.Ny) :
    u_np1 p s b i j = u_np1 p t c i j := by
  obtain ⟨hu, _, he⟩ := h
  unfold u_np1
  by_cases h1 : i + 1 = p.Nx
  · rw [if_pos h1, if_pos h1]
  · have h2 : i + 1 < p.Nx := by omega
    rw [if_neg h1, if_neg h1, if_pos h2, if_pos h2, hu i hi j hj,
      he i hi j hj, he (i + 1) h2 j hj]

/-- The updated v at a grid entry does not depend on the incoming
buffer contents nor on any off-grid entry of the state. -/
theorem v_np1_eqOn (p : SWParams) {s t : SWState} (h : stateEqOn p s t)
    (b c : Arr) {i j : ℕ} (hi : i < p.Nx) (hj : j < p.Ny) :
    v_np1 p s b i j = v_np1 p t c i j := by
  obtain ⟨_, hv, he⟩ := h
  unfold v_np1
  by_cases h1 : j + 1 = p.Ny
  · rw [if_pos h1, if_pos h1]
  · have h2 : j + 1 < p.Ny := by omega
    rw [if_neg h1, if_neg h1, if_pos h2, if_pos h2, hv i hi j hj,
      he i hi j hj, he i hi (j + 1) h2]

theorem h_e_eqOn (p : SWParams) {un un2 eta eta2 : Arr}
    (hun : ∀ i < p.Nx, ∀ j < p.Ny, un i j = un2 i j)
    (heta : ∀ i < p.Nx, ∀ j < p.Ny, eta i j = eta2 i j)
    {i j : ℕ} (hi : i < p.Nx) (hj : j < p.Ny) :
    h_e p un eta i j = h_e p un2 eta2 i j := by
  unfold h_e
  by_cases h1 : i + 1 < p.Nx
  · rw [if_pos h1, if_pos h1, hun i hi j hj, heta i hi j hj,
      heta (i + 1) h1 j hj]
  · rw [if_neg h1, if_neg h1, heta i hi j hj]

theorem h_w_eqOn (p : SWParams) {un un2 eta eta2 : Arr}
    (hun : ∀ i < p.Nx, ∀ j < p.Ny, un i j = un2 i j)
    (heta : ∀ i < p.Nx, ∀ j < p.Ny, eta i j = eta2 i j)
    {i j : ℕ} (hi : i < p.Nx) (hj : j < p.Ny) :
    h_w p un eta i j = h_w p un2 eta2 i j := by
  unfold h_w
  by_cases h0 : i = 0
  · subst h0
    rw [if_pos rfl, if_pos rfl, heta 0 hi j hj]
  · have hi1 : i - 1 < p.Nx := by omega
    rw [if_neg h0, if_neg h0, hun (i - 1) hi1 j hj,
      heta (i - 1) hi1 j hj, heta i hi j hj]

theorem h_n_eqOn (p : SWParams) {vn vn2 eta eta2 : Arr}
    (hvn : ∀ i < p.Nx, ∀ j < p.Ny, vn i j = vn2 i j)
    (heta : ∀ i < p.Nx, ∀ j < p.Ny, eta i j = eta2 i j)
    {i j : ℕ} (hi : i < p.Nx) (hj : j < p.Ny) :
    h_n p vn eta i j = h_n p vn2 eta2 i j := by
  unfold h_n
  by_cases h1 : j + 1 < p.Ny
  · rw [if_pos h1, if_pos h1, hvn i hi j hj, heta i hi j hj,
      heta i hi (j + 1) h1]
  · rw [if_neg h1, if_neg h1, heta i hi j hj]

theorem h_s_eqOn (p : SWParams) {vn vn2 eta eta2 : Arr}
    (hvn : ∀ i < p.Nx, ∀ j < p.Ny, vn i j = vn2 i j)
    (heta : ∀ i < p.Nx, ∀ j < p.Ny, eta i j = eta2 i j)
    {i j : ℕ} (hi : i < p.Nx) (hj : j < p.Ny) :
    h_s p vn eta i j = h_s p vn2 eta2 i j := by
  unfold h_s
  by_cases h0 : j = 0
  · subst h0
    rw [if_pos rfl, if_pos rfl, heta i hi 0 hj]
  · have hj1 : j - 1 < p.Ny := by omega
    rw [if_neg h0, if_neg h0, hvn i hi (j - 1) hj1,
      heta i hi (j - 1) hj1, heta i hi j hj]

theorem uhwe_eqOn (p : SWParams) {un un2 he he2 hw hw2 : Arr}
    (hun : ∀ i < p.Nx, ∀ j < p.Ny, un i j = un2 i j)
    (hhe : ∀ i < p.Nx, ∀ j < p.Ny, he i j = he2 i j)
    (hhw : ∀ i < p.Nx, ∀ j < p.Ny, hw i j = hw2 i j)
    {i j : ℕ} (hi : i < p.Nx) (hj : j < p.Ny) :
    uhwe un he hw i j = uhwe un2 he2 hw2 i j := by
  unfold uhwe
  by_cases h0 : i = 0
  · subst h0
    rw [if_pos rfl, if_pos rfl, hun 0 hi j hj, hhe 0 hi j hj]
  · rw [if_neg h0, if_neg h0, hun i hi j hj, hhe i hi j hj,
      hun (i - 1) (by omega) j hj, hhw i hi j hj]

theorem vhns_eqOn (p : SWParams) {vn vn2 hn hn2 hs hs2 : Arr}
    (hvn : ∀ i < p.Nx, ∀ j < p.Ny, vn i j = vn2 i j)
    (hhn : ∀ i < p.Nx, ∀ j < p.Ny, hn i j = hn2 i j)
    (hhs : ∀ i < p.Nx, ∀ j < p.Ny, hs i j = hs2 i j)
    {i j : ℕ} (hi : i < p.Nx) (hj : j < p.Ny) :
    vhns vn hn hs i j = vhns vn2 hn2 hs2 i j := by
  unfold vhns
  by_cases h0 : j = 0
  · subst h0
    rw [if_pos rfl, if_pos rfl, hvn i hi 0 hj, hhn i hi 0 hj]
  · rw [if_neg h0, if_neg h0, hvn i hi j hj, hhn i hi j hj,
      hvn i hi (j - 1) (by omega), hhs i hi j hj]

/-- The whole loop body is determined, on grid entries, by the grid
entries of the incoming state alone: the incoming buffer contents
are irrelevant because the body overwrites every buffer entry before
reading it. -/
theorem stepFull_eqOn (p : SWParams) {s t : SWState} (h : stateEqOn p s t)
    (b c : Buffers) :
    stateEqOn p (stepFull p (s, b)).1 (stepFull p (t, c)).1 := by
  have hun : ∀ i < p.Nx, ∀ j < p.Ny,
      u_np1 p s b.ubuf i j = u_np1 p t c.ubuf i j :=
    fun i hi j hj => u_np1_eqOn p h b.ubuf c.ubuf hi hj
  have hvn : ∀ i < p.Nx, ∀ j < p.Ny,
      v_np1 p s b.vbuf i j = v_np1 p t c.vbuf i j :=
    fun i hi j hj => v_np1_eqOn p h b.vbuf c.vbuf hi hj
  have hhe : ∀ i < p.Nx, ∀ j < p.Ny,
      h_e p (u_np1 p s b.ubuf) s.eta i j =
        h_e p (u_np1 p t c.ubuf) t.eta i j :=
    fun i hi j hj => h_e_eqOn p hun h.2.2 hi hj
  have hhw : ∀ i < p.Nx, ∀ j < p.Ny,
      h_w p (u_np1 p s b.ubuf) s.eta i j =
        h_w p (u_np1 p t c.ubuf) t.eta i j :=
    fun i hi j hj => h_w_eqOn p hun h.2.2 hi hj
  have hhn : ∀ i < p.Nx, ∀ j < p.Ny,
      h_n p (v_np1 p s b.vbuf) s.eta i j =
        h_n p (v_np1 p t c.vbuf) t.eta i j :=
    fun i hi j hj => h_n_eqOn p hvn h.2.2 hi hj
  have hhs : ∀ i < p.Nx, ∀ j < p.Ny,
      h_s p (v_np1 p s b.vbuf) s.eta i j =
        h_s p (v_np1 p t c.vbuf) t.eta i j :=
    fun i hi j hj => h_s_eqOn p hvn h.2.2 hi hj
  have huh : ∀ i < p.Nx, ∀ j < p.Ny,
      uhwe (u_np1 p s b.ubuf) (h_e p (u_np1 p s b.ubuf) s.eta)
          (h_w p (u_np1 p s b.ubuf) s.eta) i j =
        uhwe (u_np1 p t c.ubuf) (h_e p (u_np1 p t c.ubuf) t.eta)
          (h_w p (u_np1 p t c.ubuf) t.eta) i j :=
    fun i hi j hj => uhwe_eqOn p hun hhe hhw hi hj
  have hvh : ∀ i < p.Nx, ∀ j < p.Ny,
      vhns (v_np1 p s b.vbuf) (h_n p (v_np1 p s b.vbuf) s.eta)
          (h_s p (v_np1 p s b.vbuf) s.eta) i j =
        vhns (v_np1 p t c.vbuf) (h_n p (v_np1 p t c.vbuf) t.eta)
          (h_s p (v_np1 p t c.vbuf) t.eta) i j :=
    fun i hi j hj => vhns_eqOn p hvn hhn hhs hi hj
  refine ⟨hun, hvn, fun i hi j hj => ?_⟩
  show eta_np1 p s.eta _ _ i j = eta_np1 p t.eta _ _ i j
  unfold eta_np1
  rw [h.2.2 i hi j hj, huh i hi j hj, hvh i hi j hj]

/-- Runs of the loop from states agreeing on the grid — with any
buffer contents on either side — produce snapshot lists of equal
length whose corresponding entries agree on the grid. -/
theorem swRun_eqOn (p : SWParams) (anim maxT : ℕ) :
    ∀ t (s t2 : SWState) (b c : Buffers) (acc acc2 : List SWState),
      stateEqOn p s t2 → List.Forall₂ (stateEqOn p) acc acc2 →
      List.Forall₂ (stateEqOn p) (swRun p anim maxT t (s, b) acc).2
        (swRun p anim maxT t (t2, c) acc2).2 := by
  intro t s t2 b c acc acc2 hs hacc
  unfold swRun
  by_cases h : t < maxT
  · rw [dif_pos h, dif_pos h]
    have hstep := stepFull_eqOn p hs b c
    have hsb : (stepFull p (s, b)).2 = ⟨(stepFull p (s, b)).1.u,
        (stepFull p (s, b)).1.v⟩ := rfl
    refine swRun_eqOn p anim maxT (t + 1) (stepFull p (s, b)).1
      (stepFull p (t2, c)).1 (stepFull p (s, b)).2 (stepFull p (t2, c)).2
      _ _ hstep ?_
    by_cases hmod : (t + 1) % anim = 0
    · rw [if_pos hmod, if_pos hmod]
      exact List.rel_append hacc
        (List.Forall₂.cons hstep List.Forall₂.nil)
    · rw [if_neg hmod, if_neg hmod]
      exact hacc
  · rw [dif_neg h, dif_neg h]
    exact hacc
termination_by t => maxT - t

/-- C10: the momentum update and boundary overwrite executed once
before the loop (lines 234-242, writing only the u_np1 and v_np1
buffers from the initial state) have no effect on any observable
output: the snapshot sequences of the run with the pre-loop block and
of the run without it have the same length and identical entries on
every array cell, because the loop body recomputes every buffer entry
before reading it. -/
theorem c10_preloop_no_effect (p : SWParams) (s0 : SWState)
    (anim maxT : ℕ) :
    List.Forall₂ (stateEqOn p)
      (swRun p anim maxT 1 (s0, preloop p s0 zeroBuf) []).2
      (swRun p anim maxT 1 (s0, zeroBuf) []).2 :=
  swRun_eqOn p anim maxT 1 s0 s0 (preloop p s0 zeroBuf) zeroBuf [] []
    (stateEqOn_refl p s0) List.Forall₂.nil

/-- The startup configuration scalars of lines 120-149 that determine
the grid spacing and time step: domain lengths, grid point counts,
gravity and resting depth. -/
structure Config where
  Lx : ℚ
  Ly : ℚ
  Nx : ℕ
  Ny : ℕ
  g : ℚ
  H : ℚ

/-- Line 145: dx = L_x/(N_x - 1).  The subtraction is Python integer
arithmetic (N_x = 0 gives -1), mirrored by casting before
subtracting; N_x = 1 makes the denominator zero, where Python raises
ZeroDivisionError (the Lean junk value 0 is never used: runBegins is
false there). -/
def dxOf (c : Config) : ℚ := c.Lx / ((c.Nx : ℚ) - 1)

/-- Line 146: dy = L_y/(N_y - 1). -/
def dyOf (c : Config) : ℚ := c.Ly / ((c.Ny : ℚ) - 1)

/-- Whether the script reaches the integration loop: the startup of
lines 120-246 performs no validation whatsoever, so the only aborting
path is the ZeroDivisionError from dx or dy when N_x = 1 or N_y = 1
(negative lengths pass through silently, and np.sqrt of a
non-positive g*H yields nan with a warning, not an error). -/
def runBegins (c : Config) : Bool := !(c.Nx == 1) && !(c.Ny == 1)

/-- The square of the time step of line 147,
dt = 0.1*min(dx, dy)/np.sqrt(g*H), written without the square root so
that it stays inside exact rational arithmetic:
dt^2 = (1/10)^2 * min(dx, dy)^2 / (g*H). -/
def dtSqOf (c : Config) : ℚ :=
  (1 / 10) ^ 2 * (min (dxOf c) (dyOf c)) ^ 2 / (c.g * c.H)

/-- C8 (amended): the script never validates its configuration; what
is true instead is that the derived dt satisfies the CFL bound by
construction: for every configuration with positive dx, dy and g*H,
dt^2 * (g*H) <= min(dx, dy)^2 — i.e. dt <= min(dx, dy)/sqrt(g*H) —
with dt^2 nonnegative, because dt carries the safety factor 0.1. -/
theorem c8_cfl_by_construction (c : Config) (hdx : 0 < dxOf c)
    (hdy : 0 < dyOf c) (hgH : 0 < c.g * c.H) :
    0 ≤ dtSqOf c ∧
    dtSqOf c * (c.g * c.H) ≤ (min (dxOf c) (dyOf c)) ^ 2 := by
  constructor
  · unfold dtSqOf
    positivity
  · unfold dtSqOf
    rw [div_mul_cancel₀ _ (ne_of_gt hgH)]
    nlinarith [sq_nonneg (min (dxOf c) (dyOf c))]

/-- The script's own configuration, lines 120-149. -/
def cfgScript : Config := ⟨10 ^ 6, 10 ^ 6, 150, 150, 981 / 100, 100⟩

/-- C8 witness: the script's configuration has positive spacings and
wave speed, and its derived dt^2 satisfies the squared CFL bound. -/
theorem c8_cfl_by_construction_witness :
    0 < dxOf cfgScript ∧ 0 < dyOf cfgScript ∧
    0 < cfgScript.g * cfgScript.H ∧
    (0 ≤ dtSqOf cfgScript ∧
      dtSqOf cfgScript * (cfgScript.g * cfgScript.H) ≤
        (min (dxOf cfgScript) (dyOf cfgScript)) ^ 2) :=
  ⟨by norm_num [dxOf, cfgScript], by norm_num [dyOf, cfgScript],
   by norm_num [cfgScript],
   c8_cfl_by_construction cfgScript (by norm_num [dxOf, cfgScript])
     (by norm_num [dyOf, cfgScript]) (by norm_num [cfgScript])⟩

/-- An invalid configuration in the claim's sense: the domain length
is negative, so dx < 0. -/
def cfgBad : Config := ⟨-(10 ^ 6), 10 ^ 6, 150, 150, 981 / 100, 100⟩

/-- C8 counterexample: the configuration with L_x = -10^6 has dx < 0
— invalid by the claim — yet the startup performs no check and the
run begins, so invalid configurations are not detected and reported
as fatal configuration errors before the first step. -/
theorem c8_cfl_by_construction_cex :
    runBegins cfgBad = true ∧ dxOf cfgBad < 0 :=
  ⟨by decide, by norm_num [dxOf, cfgBad]⟩

/-- Line 120: L_x = 1E+6. -/
def L_x : ℚ := 10 ^ 6

/-- Line 121: L_y = 1E+6. -/
def L_y : ℚ := 10 ^ 6

/-- Line 143: N_x = 150. -/
def N_x : ℕ := 150

/-- Line 144: N_y = 150. -/
def N_y : ℕ := 150

/-- Line 145 for the script constants. -/
def dxS : ℚ := L_x / ((N_x : ℚ) - 1)

/-- Line 146 for the script constants. -/
def dyS : ℚ := L_y / ((N_y : ℚ) - 1)

/-- Line 151: x = np.linspace(-L_x/2, L_x/2, N_x), whose entry i is
exactly -L_x/2 + i*dx; after the meshgrid and the transposes of
lines 153-162, X[i,j] = x[i]. -/
def xCoord (i : ℕ) : ℚ := -(L_x / 2) + i * dxS

/-- Line 152: y = np.linspace(-L_y/2, L_y/2, N_y); Y[i,j] = y[j]. -/
def yCoord (j : ℕ) : ℚ := -(L_y / 2) + j * dyS

/-- The literal decay scale 0.05E+6 of line 210. -/
def decay : ℚ := 5 * 10 ^ 4

/-- Line 210 initializes
eta_n = np.exp(-((X - L_x/2.7)^2/(2*(0.05E+6)^2)
  + (Y - L_y/4)^2/(2*(0.05E+6)^2))); gaussArg X Y is the rational
argument of that exponential, so eta_n[i,j]
= exp(-(gaussArg (xCoord i) (yCoord j))).  exp is strictly
decreasing in gaussArg, so eta is 1 exactly where gaussArg vanishes
and smaller elsewhere. -/
def gaussArg (X Y : ℚ) : ℚ :=
  (X - L_x / (27 / 10)) ^ 2 / (2 * decay ^ 2) +
    (Y - L_y / 4) ^ 2 / (2 * decay ^ 2)

/-- Lines 185 and 187: u_n = np.zeros((N_x, N_y)). -/
def u_init : Arr := fun _ _ => 0

/-- v_n = np.zeros((N_x, N_y)). -/
def v_init : Arr := fun _ _ => 0

/-- C9 (amended): u and v start identically zero; the grid axes span
[-L_x/2, L_x/2] and [-L_y/2, L_y/2]; the decay scale 0.05E+6 equals
0.05*L_x; and eta is a Gaussian bump of amplitude 1 whose center —
the unique zero of the exponential's argument — lies at X = L_x/2.7,
Y = L_y/4 in the centered coordinate system (not at
L_x/2.7 - L_x/2, L_y/4 - L_y/2: the subtraction of the bump offset
happens after the coordinates are already centered). -/
theorem c9_initial_condition :
    (∀ i j, u_init i j = 0 ∧ v_init i j = 0) ∧
    xCoord 0 = -(L_x / 2) ∧ xCoord (N_x - 1) = L_x / 2 ∧
    yCoord 0 = -(L_y / 2) ∧ yCoord (N_y - 1) = L_y / 2 ∧
    (∀ X Y : ℚ, 0 ≤ gaussArg X Y) ∧
    (∀ X Y : ℚ, gaussArg X Y = 0 ↔ X = L_x / (27 / 10) ∧ Y = L_y / 4) ∧
    decay = (5 / 100) * L_x := by
  have hpos : (0 : ℚ) < 2 * decay ^ 2 := by norm_num [decay]
  refine ⟨fun i j => ⟨rfl, rfl⟩,
    by norm_num [xCoord, dxS, L_x, N_x],
    by norm_num [xCoord, dxS, L_x, N_x],
    by norm_num [yCoord, dyS, L_y, N_y],
    by norm_num [yCoord, dyS, L_y, N_y],
    fun X Y => add_nonneg (div_nonneg (sq_nonneg _) hpos.le)
      (div_nonneg (sq_nonneg _) hpos.le),
    fun X Y => ?_, by norm_num [decay, L_x]⟩
  constructor
  · intro h
    have t1 : 0 ≤ (X - L_x / (27 / 10)) ^ 2 / (2 * decay ^ 2) :=
      div_nonneg (sq_nonneg _) hpos.le
    have t2 : 0 ≤ (Y - L_y / 4) ^ 2 / (2 * decay ^ 2) :=
      div_nonneg (sq_nonneg _) hpos.le
    unfold gaussArg at h
    have e1 : (X - L_x / (27 / 10)) ^ 2 / (2 * decay ^ 2) = 0 := by
      linarith
    have e2 : (Y - L_y / 4) ^ 2 / (2 * decay ^ 2) = 0 := by linarith
    rw [div_eq_zero_iff] at e1 e2
    constructor
    · rcases e1 with e1 | e1
      · have := sq_eq_zero_iff.mp e1
        linarith [this]
      · exact absurd e1 (ne_of_gt hpos)
    · rcases e2 with e2 | e2
      · have := sq_eq_zero_iff.mp e2
        linarith [this]
      · exact absurd e2 (ne_of_gt hpos)
  · rintro ⟨hX, hY⟩
    unfold gaussArg
    rw [hX, hY]
    norm_num

/-- C9 counterexample: at the point the claim names as the bump
center, x = L_x/2.7 - L_x/2 and y = L_y/4 - L_y/2 in centered
coordinates, the exponential's argument is 100, not 0 — so eta there
is exp(-100), far below the claimed amplitude 1; the actual center is
(L_x/2.7, L_y/4). -/
theorem c9_initial_condition_cex :
    gaussArg (L_x / (27 / 10) - L_x / 2) (L_y / 4 - L_y / 2) = 100 ∧
    (100 : ℚ) ≠ 0 := by
  constructor
  · unfold gaussArg decay L_x L_y
    norm_num
  · norm_num
